import Mathlib

/-!
Verification of the WebChat backend (FastAPI + SQLAlchemy) chat core.

The development shallowly embeds the data model (`app/models/*`) and the
operations of `app/services/chat_service.py`, `app/services/websocket.py`,
`app/api/endpoints/chats.py` and `app/api/endpoints/users.py` as pure Lean
functions over an explicit database state.  UUIDs are modelled as `Nat`
drawn from a fresh-id counter, timestamps as `Nat`, and the database tables
as lists of records.  Each fallible endpoint returns `Except ApiError`;
raising `HTTPException` in the source corresponds to returning `.error`
(the enclosing transaction is rolled back, so an error leaves the state
unchanged).  Broadcasts are modelled as the list of target user ids handed
to the connection manager.
-/

namespace WebChat

/-- Role of a participant inside a conversation (`UserRole` enum). -/
inductive UserRole
  | admin
  | member
deriving DecidableEq, Repr

/-- Message type enum (`MessageType`). -/
inductive MessageType
  | text
  | image
  | video
  | file
  | system
deriving DecidableEq, Repr

/-- Row of the `conversations` table. -/
structure ConvRec where
  id : Nat
  is_group : Bool
  name : Option String
deriving DecidableEq, Repr

/-- Row of the `conversation_participants` table. -/
structure PartRec where
  conversation_id : Nat
  user_id : Nat
  role : UserRole
  last_read_at : Nat
deriving DecidableEq, Repr

/-- Row of the `messages` table. -/
structure MsgRec where
  id : Nat
  conversation_id : Nat
  sender_id : Option Nat
  content : Option String
  type : MessageType
  is_deleted : Bool
  created_at : Nat
deriving DecidableEq, Repr

/-- Row of the `attachments` table. -/
structure AttRec where
  id : Nat
  message_id : Nat
  file_type : Option String
  file_name : Option String
  file_size : Nat
deriving DecidableEq, Repr

/-- Row of the `message_reactions` table (the surrogate UUID key is not
modelled; the application code only ever queries by the triple). -/
structure ReactRec where
  message_id : Nat
  user_id : Nat
  emoji : String
deriving DecidableEq, Repr

/-- Row of the `user_blocks` table. -/
structure BlockRec where
  blocker_id : Nat
  blocked_id : Nat
deriving DecidableEq, Repr

/-- The database state: the tables touched by the chat core plus the
fresh-id counter standing in for UUID generation. -/
structure DB where
  users : List Nat
  conversations : List ConvRec
  participants : List PartRec
  messages : List MsgRec
  attachments : List AttRec
  reactions : List ReactRec
  blocks : List BlockRec
  nextId : Nat
deriving DecidableEq, Repr

/-- Typed failures raised as `HTTPException` by the endpoints. -/
inductive ApiError
  | badRequest
  | notFound
  | forbidden
  | blocked
deriving DecidableEq, Repr

/-- An uploaded file as seen by `send_message`: `filename`/`content_type`
are `none` when the object lacks the corresponding attribute (the code
guards both with `hasattr`/`getattr`). -/
structure FileMeta where
  filename : Option String
  content_type : Option String
  size : Nat
deriving DecidableEq, Repr

/-! ## Shared queries -/

/-- Python `str.lower()` / SQL case folding, modelled on the character
list of the string. -/
def lowerStr (s : String) : String :=
  String.mk (s.data.map Char.toLower)

/-- Does the needle match at the head of the haystack
(`str.startswith`)? -/
def startsB : List Char → List Char → Bool
  | [], _ => true
  | _ :: _, [] => false
  | a :: as, b :: bs => a == b && startsB as bs

/-- Membership test of the `conversation_participants` table, as used by
`is_participant = any(p.user_id == user_id for p in chat.participants)`. -/
def isPart (db : DB) (cid uid : Nat) : Bool :=
  db.participants.any fun p => p.conversation_id == cid && p.user_id == uid

/-- `chat.participants` projected to user ids — the broadcast target list
used by every `for p in chat.participants: send_personal_message(...)`. -/
def chatParticipantIds (db : DB) (cid : Nat) : List Nat :=
  (db.participants.filter fun p => p.conversation_id == cid).map fun p => p.user_id

/-- `ChatService.get_chat_details`: load the conversation, 404 when absent,
403 when the caller is not a participant. -/
def get_chat_details (db : DB) (cid uid : Nat) : Except ApiError ConvRec :=
  match db.conversations.find? (fun c => c.id == cid) with
  | none => .error ApiError.notFound
  | some chat => if isPart db cid uid then .ok chat else .error ApiError.forbidden

/-! ## Direct conversation lookup-or-create (`create_chat` endpoint) -/

/-- The SQL filter of the direct-conversation lookup: not a group, the
requested participant is a member, and the conversation id occurs among the
caller's conversations. -/
def directPred (db : DB) (me pid : Nat) (c : ConvRec) : Bool :=
  !c.is_group && isPart db c.id pid && isPart db c.id me

/-- `scalars().first()` over the direct-conversation lookup query. -/
def findDirectConv (db : DB) (me pid : Nat) : Option ConvRec :=
  db.conversations.find? (directPred db me pid)

/-- Number of non-group conversations containing both users. -/
def countDirect (db : DB) (me pid : Nat) : Nat :=
  db.conversations.countP (directPred db me pid)

/-- The fresh-id counter really is fresh for the conversations table. -/
def freshB (db : DB) : Bool :=
  db.conversations.all fun c => c.id != db.nextId

/-- `POST /chats` (`create_chat`): reject self-chat, 404 unknown user, then
return the existing direct conversation or create one with two participant
rows.  Returns the conversation id. -/
def create_chat (db : DB) (now me pid : Nat) : Except ApiError (DB × Nat) :=
  if me == pid then .error ApiError.badRequest
  else if !(db.users.contains pid) then .error ApiError.notFound
  else
    match findDirectConv db me pid with
    | some c => .ok (db, c.id)
    | none =>
      let cid := db.nextId
      let db' : DB := { db with
        conversations := db.conversations ++ [⟨cid, false, none⟩],
        participants := db.participants ++
          [⟨cid, me, UserRole.member, now⟩, ⟨cid, pid, UserRole.member, now⟩],
        nextId := db.nextId + 1 }
      .ok (db', cid)

/-! ## Group creation (`ChatService.create_group_chat`) -/

/-- The participant rows built by `create_group_chat`: the creator with
role admin first, then one member row per element of `participant_ids`
whose id differs from the creator (`if pid != user_id`). -/
def groupRows (cid creator : Nat) (participant_ids : List Nat) (now : Nat) : List PartRec :=
  PartRec.mk cid creator UserRole.admin now ::
    (participant_ids.filter fun p => p != creator).map
      fun p => PartRec.mk cid p UserRole.member now

/-- `ChatService.create_group_chat`: insert the conversation and the rows
of `groupRows`.  Returns the new conversation id. -/
def create_group_chat (db : DB) (now creator : Nat) (participant_ids : List Nat)
    (name : Option String) : DB × Nat :=
  let cid := db.nextId
  ({ db with
      conversations := db.conversations ++ [⟨cid, true, name⟩],
      participants := db.participants ++ groupRows cid creator participant_ids now,
      nextId := db.nextId + 1 }, cid)

/-! ## Blocking (`users.py` endpoints, `check_block_status`) -/

/-- Is there a block row (blocker, blocked)? -/
def hasBlock (db : DB) (blocker blocked : Nat) : Bool :=
  db.blocks.any fun r => r.blocker_id == blocker && r.blocked_id == blocked

/-- `ChatService.check_block_status`: true when some other participant of
the conversation has a block row against the caller. -/
def check_block_status (db : DB) (cid uid : Nat) : Bool :=
  let others := (db.participants.filter
    fun p => p.conversation_id == cid && p.user_id != uid).map fun p => p.user_id
  db.blocks.any fun b => others.contains b.blocker_id && b.blocked_id == uid

/-! ## Connection manager (`websocket.py`) -/

/-- In-memory registry `active_connections`: insertion-ordered association
list from user id to the list of open handles. -/
structure ConnMgr where
  active : List (Nat × List Nat)
deriving DecidableEq, Repr

/-- `user_id_str in self.active_connections`. -/
def hasConn (m : ConnMgr) (u : Nat) : Bool :=
  m.active.any fun e => e.1 == u

/-- `self.active_connections.get(user_id_str)`. -/
def lookupConn (m : ConnMgr) (u : Nat) : Option (List Nat) :=
  (m.active.find? fun e => e.1 == u).map fun e => e.2

/-- `self.active_connections[u].append(h)` (key present). -/
def addHandle : List (Nat × List Nat) → Nat → Nat → List (Nat × List Nat)
  | [], _, _ => []
  | e :: t, u, h => if e.1 == u then (e.1, e.2 ++ [h]) :: t else e :: addHandle t u h

/-- `del self.active_connections[u]`. -/
def delKey : List (Nat × List Nat) → Nat → List (Nat × List Nat)
  | [], _ => []
  | e :: t, u => if e.1 == u then t else e :: delKey t u

/-- `self.active_connections[u] = v` (key present). -/
def setKey : List (Nat × List Nat) → Nat → List Nat → List (Nat × List Nat)
  | [], _, _ => []
  | e :: t, u, v => if e.1 == u then (u, v) :: t else e :: setKey t u v

/-- `ConnectionManager.connect`: create the entry when absent, append the
handle, then always call `broadcast_user_status(user, True)`.  The emitted
status-change broadcasts are returned as `(user, isOnline)` pairs. -/
def connect (m : ConnMgr) (u h : Nat) : ConnMgr × List (Nat × Bool) :=
  let act := if hasConn m u then addHandle m.active u h else m.active ++ [(u, [h])]
  (⟨act⟩, [(u, true)])

/-- `ConnectionManager.disconnect_async`: remove the handle when present;
when the handle list becomes empty, delete the entry and broadcast the
offline status change. -/
def disconnect_async (m : ConnMgr) (u h : Nat) : ConnMgr × List (Nat × Bool) :=
  match lookupConn m u with
  | none => (m, [])
  | some conns =>
    let conns' := if conns.contains h then conns.erase h else conns
    if conns'.isEmpty then (⟨delKey m.active u⟩, [(u, false)])
    else (⟨setKey m.active u conns'⟩, [])

/-! ## Sending messages (`send_message`) -/

/-- The image MIME whitelist of `send_message`. -/
def imageTypes : List String :=
  ["image/jpeg", "image/png", "image/gif", "image/webp"]

/-- Message-type inference of `send_message`: text when no files,
otherwise image iff every file that has a `content_type` attribute carries
a lower-cased type in the whitelist, else file. -/
def inferMessageType (files : List FileMeta) : MessageType :=
  if files.isEmpty then MessageType.text
  else if (files.filterMap fun f => f.content_type).all
      (fun ct => imageTypes.contains (lowerStr ct))
  then MessageType.image else MessageType.file

/-- Python truthiness of the `text` query parameter (`not text`). -/
def textFalsy : Option String → Bool
  | none => true
  | some s => s.isEmpty

/-- `process_attachments`: one attachment row per file that has a
`filename` attribute, with ids drawn from the fresh counter. -/
def procFiles : List FileMeta → Nat → Nat → List AttRec × Nat
  | [], _, nid => ([], nid)
  | f :: t, mid, nid =>
    if f.filename.isSome then
      let rest := procFiles t mid (nid + 1)
      (AttRec.mk nid mid f.content_type f.filename f.size :: rest.1, rest.2)
    else procFiles t mid nid

/-- The spec-side reading of an image MIME type (the repository itself
classifies attachments with `file_type.startswith("image/")` elsewhere). -/
def specImageMime (ct : String) : Bool :=
  startsB "image/".data (lowerStr ct).data

/-- `ChatService.send_message` / `POST /chats/{id}/messages`: verify
participation, run the block gate, validate non-emptiness, reject oversize
files (this raises mid-transaction in the source, rolling back the flushed
message row — so an error leaves the state unchanged), then insert the
message plus attachment rows and broadcast to every participant. -/
def send_message (db : DB) (now sender cid : Nat) (text : Option String)
    (files : List FileMeta) : Except ApiError (DB × MsgRec × List Nat) :=
  match get_chat_details db cid sender with
  | .error e => .error e
  | .ok _ =>
    if check_block_status db cid sender then .error ApiError.blocked
    else if textFalsy text && files.isEmpty then .error ApiError.badRequest
    else if files.any (fun f => f.filename.isSome && decide (10485760 < f.size)) then
      .error ApiError.badRequest
    else
      let msg : MsgRec :=
        ⟨db.nextId, cid, some sender, text, inferMessageType files, false, now⟩
      let proc := procFiles files msg.id (db.nextId + 1)
      let db' : DB := { db with
        messages := db.messages ++ [msg],
        attachments := db.attachments ++ proc.1,
        nextId := proc.2 }
      .ok (db', msg, chatParticipantIds db cid)

/-! ## Read cursor and unread projection -/

/-- Lookup of the caller's participant row. -/
def findParticipant (db : DB) (cid uid : Nat) : Option PartRec :=
  db.participants.find? fun p => p.conversation_id == cid && p.user_id == uid

/-- `conv.messages` (every message of the conversation, tombstones
included). -/
def convMessages (db : DB) (cid : Nat) : List MsgRec :=
  db.messages.filter fun m => m.conversation_id == cid

/-- The unread count computed by `_map_conversation_to_chat`: messages of
the conversation created strictly after the viewer's `last_read_at` whose
sender is not the viewer (0 when the viewer has no participant row). -/
def projectUnread (db : DB) (cid uid : Nat) : Nat :=
  match findParticipant db cid uid with
  | none => 0
  | some p =>
    ((convMessages db cid).filter fun m =>
      decide (p.last_read_at < m.created_at) && m.sender_id != some uid).length

/-- Mutate the first matching participant row, as the ORM does with the
object returned by `scalars().first()`. -/
def updFirstPart : List PartRec → Nat → Nat → Nat → List PartRec
  | [], _, _, _ => []
  | p :: t, cid, uid, now =>
    if p.conversation_id == cid && p.user_id == uid then
      { p with last_read_at := now } :: t
    else p :: updFirstPart t cid uid now

/-- `ChatService.mark_as_read`: 404 without a participant row, otherwise
set `last_read_at` to the current instant. -/
def mark_as_read (db : DB) (now uid cid : Nat) : Except ApiError DB :=
  match findParticipant db cid uid with
  | none => .error ApiError.notFound
  | some _ => .ok { db with participants := updFirstPart db.participants cid uid now }

/-! ## Reactions (`ChatService.add_reaction`) -/

/-- The (message, user, emoji) lookup filter. -/
def reactPred (mid uid : Nat) (emoji : String) (r : ReactRec) : Bool :=
  r.message_id == mid && r.user_id == uid && r.emoji == emoji

/-- Does the triple exist? -/
def hasReaction (db : DB) (mid uid : Nat) (emoji : String) : Bool :=
  db.reactions.any (reactPred mid uid emoji)

/-- The recomputed per-emoji count broadcast after a toggle: reactions of
the message filtered to the emoji. -/
def emojiCount (db : DB) (mid : Nat) (emoji : String) : Nat :=
  (db.reactions.filter fun r => r.message_id == mid).countP fun r => r.emoji == emoji

/-- `ChatService.add_reaction`: verify access, find the non-deleted message
in the chat (404 otherwise), toggle the triple (delete the found row /
insert a new one), recompute the emoji count on the post-commit state and
broadcast it to every participant.  Returns the new state, the action
string, the count, and the broadcast targets. -/
def add_reaction (db : DB) (uid cid mid : Nat) (emoji : String) :
    Except ApiError (DB × String × Nat × List Nat) :=
  match get_chat_details db cid uid with
  | .error e => .error e
  | .ok _ =>
    match db.messages.find?
        (fun m => m.id == mid && m.conversation_id == cid && !m.is_deleted) with
    | none => .error ApiError.notFound
    | some _ =>
      let step :=
        if hasReaction db mid uid emoji then
          ({ db with reactions := db.reactions.eraseP (reactPred mid uid emoji) },
            "removed")
        else
          ({ db with reactions := db.reactions ++ [⟨mid, uid, emoji⟩] }, "added")
      .ok (step.1, step.2, emojiCount step.1 mid emoji, chatParticipantIds db cid)

/-! ## Soft delete (`ChatService.delete_message`) -/

/-- The ownership filter of the delete query: message id, conversation and
sender must all match. -/
def msgOwnedPred (mid cid uid : Nat) (m : MsgRec) : Bool :=
  m.id == mid && m.conversation_id == cid && m.sender_id == some uid

/-- Mutate the first matching message row into its tombstone
(`is_deleted = True`, `content = None`). -/
def tombstoneFirst : List MsgRec → Nat → Nat → Nat → List MsgRec
  | [], _, _, _ => []
  | m :: t, mid, cid, uid =>
    if msgOwnedPred mid cid uid m then
      { m with is_deleted := true, content := none } :: t
    else m :: tombstoneFirst t mid cid uid

/-- `ChatService.delete_message`: 404 when no owned message matches; a
no-op success on an already-deleted message; otherwise tombstone the row,
drop its attachment rows (`message.attachments = []` with delete-orphan
cascade) and broadcast to the conversation's participants.  Returns the
new state, the broadcast targets, and the status text. -/
def delete_message (db : DB) (uid cid mid : Nat) :
    Except ApiError (DB × List Nat × String) :=
  match db.messages.find? (msgOwnedPred mid cid uid) with
  | none => .error ApiError.notFound
  | some m =>
    if m.is_deleted then .ok (db, [], "Message already deleted")
    else
      let db' : DB := { db with
        messages := tombstoneFirst db.messages mid cid uid,
        attachments := db.attachments.filter fun a => a.message_id != mid }
      .ok (db', chatParticipantIds db m.conversation_id, "Message deleted")

/-! ## Block / unblock endpoints (`users.py`) -/

/-- Recipients of `broadcast_block_update`: among the two parties, those
with a live entry in the connection registry. -/
def blockRecipients (conn : ConnMgr) (blocker blocked : Nat) : List Nat :=
  [blocker, blocked].filter fun uid => hasConn conn uid

/-- `POST /users/{id}/block`: reject self-block, 404 unknown user, no-op
success when the block row already exists, otherwise insert it and notify
the two parties.  Returns the state and the notified user ids. -/
def block_user (db : DB) (conn : ConnMgr) (me target : Nat) :
    Except ApiError (DB × List Nat) :=
  if target == me then .error ApiError.badRequest
  else if !(db.users.contains target) then .error ApiError.notFound
  else if hasBlock db me target then .ok (db, [])
  else .ok ({ db with blocks := db.blocks ++ [⟨me, target⟩] },
    blockRecipients conn me target)

/-- `DELETE /users/{id}/block`: delete the block row and notify the two
parties when it exists, otherwise do nothing. -/
def unblock_user (db : DB) (conn : ConnMgr) (me target : Nat) : DB × List Nat :=
  match db.blocks.find? (fun r => r.blocker_id == me && r.blocked_id == target) with
  | none => (db, [])
  | some _ =>
    ({ db with blocks :=
        db.blocks.eraseP fun r => r.blocker_id == me && r.blocked_id == target },
      blockRecipients conn me target)

/-! ## Message history (`get_messages`) -/

/-- Substring occurrence over character lists. -/
def hasSub (needle : List Char) : List Char → Bool
  | [] => needle.isEmpty
  | b :: t => startsB needle (b :: t) || hasSub needle t

/-- `Message.content.ilike(f"%{query}%")`: case-insensitive substring
match; a NULL content never matches. -/
def ilikeContains (content : Option String) (q : String) : Bool :=
  match content with
  | none => false
  | some c => hasSub (lowerStr q).data (lowerStr c).data

/-- The `order_by(created_at.asc())` ordering. -/
def msgLe (a b : MsgRec) : Prop :=
  a.created_at ≤ b.created_at

instance : DecidableRel msgLe :=
  fun a b => Nat.decLe a.created_at b.created_at

instance : IsTotal MsgRec msgLe :=
  ⟨fun a b => Nat.le_total a.created_at b.created_at⟩

instance : IsTrans MsgRec msgLe :=
  ⟨fun _ _ _ => Nat.le_trans⟩

/-- `ChatService.get_messages`: verify participation, filter by
conversation — and, only when a truthy query is supplied, by
case-insensitive content match and `is_deleted == False` — then sort by
creation time ascending. -/
def get_messages (db : DB) (uid cid : Nat) (query : Option String) :
    Except ApiError (List MsgRec) :=
  match get_chat_details db cid uid with
  | .error e => .error e
  | .ok _ =>
    let pred : MsgRec → Bool := fun m =>
      m.conversation_id == cid &&
        (match query with
         | none => true
         | some q =>
           if q.isEmpty then true
           else ilikeContains m.content q && !m.is_deleted)
    .ok (List.insertionSort msgLe (db.messages.filter pred))

/-- Decidable equality for endpoint results, so that the concrete
instantiations below evaluate. -/
instance {ε α : Type} [DecidableEq ε] [DecidableEq α] : DecidableEq (Except ε α) :=
  fun a b =>
    match a, b with
    | .ok x, .ok y =>
      if h : x = y then .isTrue (by rw [h]) else
        .isFalse (by intro hc; cases hc; exact h rfl)
    | .error x, .error y =>
      if h : x = y then .isTrue (by rw [h]) else
        .isFalse (by intro hc; cases hc; exact h rfl)
    | .ok _, .error _ => .isFalse (by intro hc; cases hc)
    | .error _, .ok _ => .isFalse (by intro hc; cases hc)

/-! ## Derived state builders (used to phrase the theorems) -/

/-- The reactions table after one toggle of `add_reaction`: delete the
first matching triple when present, append a fresh row otherwise. -/
def toggledReactions (db : DB) (mid uid : Nat) (emoji : String) : DB :=
  if hasReaction db mid uid emoji then
    { db with reactions := db.reactions.eraseP (reactPred mid uid emoji) }
  else { db with reactions := db.reactions ++ [⟨mid, uid, emoji⟩] }

/-- The action string reported by one toggle of `add_reaction`. -/
def toggleAction (db : DB) (mid uid : Nat) (emoji : String) : String :=
  if hasReaction db mid uid emoji then "removed" else "added"

/-- The database after the destructive branch of `delete_message`. -/
def tombstoneDb (db : DB) (uid cid mid : Nat) : DB :=
  { db with
    messages := tombstoneFirst db.messages mid cid uid,
    attachments := db.attachments.filter fun a => a.message_id != mid }

/-- Type of the stored message of a successful `send_message` call. -/
def sentType (r : Except ApiError (DB × MsgRec × List Nat)) : Option MessageType :=
  match r with
  | .ok x => some x.2.1.type
  | .error _ => none

/-! ## Concrete states used to instantiate the theorems -/

/-- Two registered users, all tables empty. -/
def dbEmpty : DB := ⟨[1, 2], [], [], [], [], [], [], 0⟩

/-- Users 1 and 2 sharing direct conversation 0. -/
def dbPair : DB :=
  ⟨[1, 2], [⟨0, false, none⟩],
    [⟨0, 1, UserRole.member, 5⟩, ⟨0, 2, UserRole.member, 5⟩],
    [], [], [], [], 1⟩

/-- Like `dbPair`, but user 2 has blocked user 1. -/
def dbBlocked : DB :=
  ⟨[1, 2], [⟨0, false, none⟩],
    [⟨0, 1, UserRole.member, 5⟩, ⟨0, 2, UserRole.member, 5⟩],
    [], [], [], [⟨2, 1⟩], 1⟩

/-- Like `dbPair`, with one message (id 10) from user 1 and no reactions. -/
def dbMsg : DB :=
  ⟨[1, 2], [⟨0, false, none⟩],
    [⟨0, 1, UserRole.member, 5⟩, ⟨0, 2, UserRole.member, 5⟩],
    [⟨10, 0, some 1, some "hi", MessageType.text, false, 3⟩],
    [], [], [], 11⟩

/-- Like `dbMsg`, with an attachment on message 10. -/
def dbAtt : DB :=
  ⟨[1, 2], [⟨0, false, none⟩],
    [⟨0, 1, UserRole.member, 5⟩, ⟨0, 2, UserRole.member, 5⟩],
    [⟨10, 0, some 1, some "hi", MessageType.text, false, 3⟩],
    [⟨20, 10, some "image/png", some "a.png", 4⟩], [], [], 21⟩

/-- A history for conversation 0: one incoming message and one tombstoned
message of user 1, out of creation order. -/
def dbHist : DB :=
  ⟨[1, 2], [⟨0, false, none⟩],
    [⟨0, 1, UserRole.member, 5⟩, ⟨0, 2, UserRole.member, 5⟩],
    [⟨11, 0, some 2, some "hello there", MessageType.text, false, 3⟩,
      ⟨12, 0, some 1, none, MessageType.text, true, 1⟩],
    [], [], [], 13⟩

/-- A registry with user 2 online (one handle). -/
def cmObserver : ConnMgr := ⟨[(2, [9])]⟩

/-- A registry with user 3 online on two handles. -/
def cmTwoHandles : ConnMgr := ⟨[(3, [7, 8])]⟩

/-- A registry with users 1 and 2 online. -/
def cmBoth : ConnMgr := ⟨[(1, [4]), (2, [9])]⟩

/-! ## Helper lemmas -/

theorem find?_ext {α : Type} {p q : α → Bool} (l : List α)
    (h : ∀ a ∈ l, p a = q a) : l.find? p = l.find? q := by
  induction l with
  | nil => rfl
  | cons x xs ih =>
    have hx := h x (List.mem_cons_self x xs)
    cases hq : q x with
    | true =>
      rw [List.find?_cons_of_pos _ (hx.trans hq), List.find?_cons_of_pos _ hq]
    | false =>
      rw [List.find?_cons_of_neg _ (by rw [hx, hq]; exact Bool.false_ne_true),
        List.find?_cons_of_neg _ (by rw [hq]; exact Bool.false_ne_true)]
      exact ih fun a ha => h a (List.mem_cons_of_mem x ha)

theorem countP_ext {α : Type} {p q : α → Bool} (l : List α)
    (h : ∀ a ∈ l, p a = q a) : l.countP p = l.countP q := by
  induction l with
  | nil => rfl
  | cons x xs ih =>
    rw [List.countP_cons, List.countP_cons,
      h x (List.mem_cons_self x xs),
      ih fun a ha => h a (List.mem_cons_of_mem x ha)]

theorem directPred_comm (db : DB) (a b : Nat) (c : ConvRec) :
    directPred db a b c = directPred db b a c := by
  unfold directPred
  cases isPart db c.id a <;> cases isPart db c.id b <;>
    simp [Bool.and_comm, Bool.and_assoc]

/-! ## C1: direct-conversation lookup-or-create -/

/-- Claim C1: `create_chat` is idempotent and symmetric — once a call for
the pair (me, pid) has succeeded, a second call in either argument order
returns the very same conversation without changing the database, and the
number of non-group conversations containing both users is one when none
existed before and unchanged otherwise (never a second duplicate). -/
theorem create_chat_idem_symm (db db' : DB) (now now2 me pid cid : Nat)
    (hfresh : freshB db = true)
    (hme : db.users.contains me = true)
    (h : create_chat db now me pid = .ok (db', cid)) :
    create_chat db' now2 me pid = .ok (db', cid) ∧
    create_chat db' now2 pid me = .ok (db', cid) ∧
    countDirect db' me pid = max (countDirect db me pid) 1 := by
  unfold create_chat at h
  by_cases hmp : me = pid
  · simp [hmp] at h
  have hbe : (me == pid) = false := by simp [hmp]
  have hbe' : (pid == me) = false := by simp [Ne.symm hmp]
  rw [if_neg (by rw [hbe]; exact Bool.false_ne_true)] at h
  by_cases hpu : db.users.contains pid = true
  · rw [if_neg (by rw [hpu]; simp)] at h
    cases hfind : findDirectConv db me pid with
    | some c =>
      rw [hfind] at h
      obtain ⟨hdb, hcid⟩ := by simpa using h
      subst hdb; subst hcid
      have hfind' : findDirectConv db pid me = some c := by
        rw [findDirectConv, find?_ext _ fun a _ => directPred_comm db pid me a]
        exact hfind
      have hpos : 0 < countDirect db me pid := by
        have hc : c ∈ db.conversations := List.mem_of_find?_eq_some hfind
        have hpc : directPred db me pid c = true := List.find?_some hfind
        exact List.countP_pos_iff.mpr ⟨c, hc, hpc⟩
      refine ⟨?_, ?_, ?_⟩
      · unfold create_chat
        rw [if_neg (by rw [hbe]; exact Bool.false_ne_true),
          if_neg (by rw [hpu]; simp), hfind]
      · unfold create_chat
        rw [if_neg (by rw [hbe']; exact Bool.false_ne_true),
          if_neg (by rw [hme]; simp), hfind']
      · exact (Nat.max_eq_left hpos).symm
    | none =>
      rw [hfind] at h
      obtain ⟨hdb, hcid⟩ := by simpa using h
      subst hcid
      -- facts about the old database
      have hnone : ∀ a ∈ db.conversations, directPred db me pid a = false := by
        intro a ha
        have := List.find?_eq_none.mp hfind a ha
        simpa using this
      have hids : ∀ a ∈ db.conversations, a.id ≠ db.nextId := by
        intro a ha
        have := (List.all_eq_true.mp hfresh) a ha
        simpa using this
      -- the extended state
      subst hdb
      set cid := db.nextId with hc
      set newConv : ConvRec := ⟨cid, false, none⟩ with hnc
      set rows : List PartRec :=
        [⟨cid, me, UserRole.member, now⟩, ⟨cid, pid, UserRole.member, now⟩] with hrows
      set db' : DB := { db with
        conversations := db.conversations ++ [newConv],
        participants := db.participants ++ rows,
        nextId := db.nextId + 1 } with hdb'
      have hpart : ∀ x u, x ≠ cid → isPart db' x u = isPart db x u := by
        intro x u hx
        show (db.participants ++ rows).any _ = _
        rw [List.any_append]
        have : rows.any (fun p => p.conversation_id == x && p.user_id == u) = false := by
          simp [hrows, (Ne.symm hx)]
        rw [this, Bool.or_false]
        rfl
      have hpartNew : ∀ u, u = me ∨ u = pid → isPart db' cid u = true := by
        intro u hu
        show (db.participants ++ rows).any _ = true
        rw [List.any_append]
        have : rows.any (fun p => p.conversation_id == cid && p.user_id == u) = true := by
          rcases hu with hu | hu <;> simp [hrows, hu]
        rw [this, Bool.or_true]
      have holdFalse : ∀ a ∈ db.conversations, directPred db' me pid a = false := by
        intro a ha
        unfold directPred
        rw [hpart _ _ (hids a ha), hpart _ _ (hids a ha)]
        have := hnone a ha
        unfold directPred at this
        exact this
      have hnewTrue : directPred db' me pid newConv = true := by
        unfold directPred
        rw [show newConv.id = cid from rfl, show newConv.is_group = false from rfl]
        rw [hpartNew pid (Or.inr rfl), hpartNew me (Or.inl rfl)]
        rfl
      have hfind2 : findDirectConv db' me pid = some newConv := by
        show (db.conversations ++ [newConv]).find? _ = some newConv
        rw [List.find?_append, List.find?_eq_none.mpr
          (fun a ha => by simp [holdFalse a ha])]
        simp [hnewTrue]
      have hfind2' : findDirectConv db' pid me = some newConv := by
        rw [findDirectConv, find?_ext _ fun a _ => directPred_comm db' pid me a]
        exact hfind2
      refine ⟨?_, ?_, ?_⟩
      · unfold create_chat
        rw [if_neg (by rw [hbe]; exact Bool.false_ne_true),
          if_neg (by rw [show db'.users.contains pid = true from hpu]; simp), hfind2]
      · unfold create_chat
        rw [if_neg (by rw [hbe']; exact Bool.false_ne_true),
          if_neg (by rw [show db'.users.contains me = true from hme]; simp), hfind2']
      · have h0 : countDirect db me pid = 0 := by
          exact List.countP_eq_zero.mpr fun a ha => by simp [hnone a ha]
        have : countDirect db' me pid = 1 := by
          show (db.conversations ++ [newConv]).countP _ = 1
          rw [List.countP_append,
            List.countP_eq_zero.mpr fun a ha => by simp [holdFalse a ha]]
          simp [hnewTrue]
        rw [this, h0]
        rfl
  · have hpf : db.users.contains pid = false := by
      revert hpu; cases db.users.contains pid <;> simp
    rw [if_pos (by rw [hpf]; rfl)] at h
    exact absurd h (by simp)

/-- Witness for C1: users 1 and 2 in an empty database; the first call
creates conversation 0 and both repeated calls return it unchanged. -/
theorem create_chat_idem_symm_witness :
    create_chat dbPair 7 1 2 = .ok (dbPair, 0) ∧
    create_chat dbPair 7 2 1 = .ok (dbPair, 0) ∧
    countDirect dbPair 1 2 = max (countDirect dbEmpty 1 2) 1 :=
  create_chat_idem_symm dbEmpty dbPair 5 7 1 2 0 (by decide) (by decide) (by decide)

/-! ## C2: presence registry transitions -/

theorem lookupConn_none_find (m : ConnMgr) (u : Nat)
    (h : lookupConn m u = none) : m.active.find? (fun e => e.1 == u) = none := by
  unfold lookupConn at h
  cases hf : m.active.find? (fun e => e.1 == u) with
  | none => rfl
  | some e => rw [hf] at h; simp at h

theorem delKey_append (l : List (Nat × List Nat)) (u : Nat) (v : List Nat)
    (h : l.find? (fun e => e.1 == u) = none) : delKey (l ++ [(u, v)]) u = l := by
  induction l with
  | nil => simp [delKey]
  | cons e t ih =>
    have he : (e.1 == u) = false := by
      simpa using List.find?_eq_none.mp h e (List.mem_cons_self e t)
    have ht : t.find? (fun e => e.1 == u) = none :=
      List.find?_eq_none.mpr fun x hx =>
        List.find?_eq_none.mp h x (List.mem_cons_of_mem e hx)
    show delKey (e :: (t ++ [(u, v)])) u = e :: t
    unfold delKey
    rw [if_neg (by rw [he]; exact Bool.false_ne_true), ih ht]

/-- Claim C2 counterexample: with user 2 as an online observer, user 1
connects one handle and is online; connecting a second simultaneous
handle emits another `user_status_change` broadcast, although no
offline-to-online transition happened. -/
theorem connect_second_handle_broadcasts :
    hasConn (connect cmObserver 1 0).1 1 = true ∧
    (connect (connect cmObserver 1 0).1 1 1).2 ≠ [] := by decide

/-- Claim C2 (amended): `connect` emits one online broadcast per handle
registration — even for a user who is already online — while
`disconnect_async` emits a broadcast only on the true online-to-offline
transition: removing one of several handles emits nothing, and removing
the last handle emits exactly one offline broadcast, deletes the user's
entry and (for a user freshly registered at the tail) returns the
registry exactly to its previous state. -/
theorem presence_register_unregister (m m2 : ConnMgr) (u u2 h h2 : Nat)
    (hs : List Nat)
    (hnone : lookupConn m u = none)
    (hsome : lookupConn m2 u2 = some hs) (hmem : h2 ∈ hs)
    (hrest : (hs.erase h2).isEmpty = false) :
    (connect m u h).2 = [(u, true)] ∧
    (connect m2 u2 h2).2 = [(u2, true)] ∧
    disconnect_async (connect m u h).1 u h = (m, [(u, false)]) ∧
    (disconnect_async m2 u2 h2).2 = [] := by
  have hfind : m.active.find? (fun e => e.1 == u) = none := lookupConn_none_find m u hnone
  have hhc : hasConn m u = false := by
    unfold hasConn
    apply List.any_eq_false.mpr
    intro e he
    simpa using List.find?_eq_none.mp hfind e he
  refine ⟨rfl, rfl, ?_, ?_⟩
  · have hc1 : (connect m u h).1 = ConnMgr.mk (m.active ++ [(u, [h])]) := by
      simp [connect, hhc]
    rw [hc1]
    have hl : lookupConn (ConnMgr.mk (m.active ++ [(u, [h])])) u = some [h] := by
      unfold lookupConn
      rw [List.find?_append, hfind]
      simp
    simp [disconnect_async, hl, delKey_append m.active u [h] hfind]
  · have hcont : hs.contains h2 = true := by simpa using hmem
    simp only [disconnect_async, hsome]
    rw [hcont, if_pos rfl, hrest, if_neg Bool.false_ne_true]

/-- Witness for C2: user 1 registers next to an online observer and
unregisters again; user 3 holds two handles and drops one silently. -/
theorem presence_register_unregister_witness :
    (connect cmObserver 1 4).2 = [(1, true)] ∧
    (connect cmTwoHandles 3 6).2 = [(3, true)] ∧
    disconnect_async (connect cmObserver 1 4).1 1 4 = (cmObserver, [(1, false)]) ∧
    (disconnect_async cmTwoHandles 3 7).2 = [] :=
  presence_register_unregister cmObserver cmTwoHandles 1 3 4 7 [7, 8]
    (by decide) (by decide) (by decide) (by decide)

/-! ## C3: group creation participant rows -/

/-- Claim C3: `create_group_chat` deduplicates only the creator's own id.
With creator 1 and `participant_ids = [1, 2]` the rows are exactly one
admin row for the creator and one member row for user 2; but with
`participant_ids = [2, 2]` it builds two participant rows for user 2 —
the row list is not one-per-distinct-user, and such duplicate
(conversation, user) pairs violate the table's `uq_conversation_user`
constraint, so the insert cannot succeed as the claim describes. -/
theorem create_group_chat_duplicate_member_rows :
    ((create_group_chat dbEmpty 3 1 [1, 2] none).1.participants.map
      fun p => (p.user_id, p.role)) = [(1, UserRole.admin), (2, UserRole.member)] ∧
    ((create_group_chat dbEmpty 3 1 [2, 2] none).1.participants.map
      fun p => (p.user_id, p.role))
      = [(1, UserRole.admin), (2, UserRole.member), (2, UserRole.member)] ∧
    ¬ ((create_group_chat dbEmpty 3 1 [2, 2] none).1.participants.map
      fun p => p.user_id).Nodup := by decide

/-! ## C4: block gate on send_message -/

/-- Claim C4: when another participant of the conversation has a block row
against the sender, `send_message` fails with the Blocked condition — the
result is an error, hence no message row is written and no broadcast is
handed to the connection manager; the gate fires before the message
construction regardless of the request's content. -/
theorem send_message_blocked (db : DB) (now sender cid : Nat)
    (text : Option String) (files : List FileMeta) (chat : ConvRec) (other : PartRec)
    (hchat : get_chat_details db cid sender = .ok chat)
    (hop : other ∈ db.participants) (hoc : other.conversation_id = cid)
    (hne : other.user_id ≠ sender)
    (hblk : BlockRec.mk other.user_id sender ∈ db.blocks) :
    send_message db now sender cid text files = .error ApiError.blocked := by
  have hcb : check_block_status db cid sender = true := by
    unfold check_block_status
    apply List.any_eq_true.mpr
    refine ⟨⟨other.user_id, sender⟩, hblk, ?_⟩
    have hmem : other.user_id ∈ (db.participants.filter
        fun p => p.conversation_id == cid && p.user_id != sender).map
          fun p => p.user_id :=
      List.mem_map.mpr ⟨other,
        List.mem_filter.mpr ⟨hop, by simp [hoc, hne]⟩, rfl⟩
    simp [hmem]
  unfold send_message
  rw [hchat]
  rw [if_pos (by rw [hcb])]

/-- Witness for C4: user 2 blocked user 1 in their direct chat, so user
1's send fails with Blocked. -/
theorem send_message_blocked_witness :
    send_message dbBlocked 9 1 0 (some "hi") [] = .error ApiError.blocked :=
  send_message_blocked dbBlocked 9 1 0 (some "hi") []
    ⟨0, false, none⟩ ⟨0, 2, UserRole.member, 5⟩
    (by decide) (by decide) (by decide) (by decide) (by decide)

/-! ## C5: unread projection and read cursor -/

theorem updFirstPart_find (l : List PartRec) (cid uid now : Nat) (p : PartRec)
    (h : l.find? (fun q => q.conversation_id == cid && q.user_id == uid) = some p) :
    (updFirstPart l cid uid now).find?
      (fun q => q.conversation_id == cid && q.user_id == uid)
      = some { p with last_read_at := now } := by
  induction l with
  | nil => simp at h
  | cons x xs ih =>
    by_cases hx : (x.conversation_id == cid && x.user_id == uid) = true
    · rw [@List.find?_cons_of_pos PartRec _ x xs hx] at h
      obtain rfl : x = p := by simpa using h
      unfold updFirstPart
      rw [if_pos hx]
      exact @List.find?_cons_of_pos PartRec _ _ xs hx
    · rw [@List.find?_cons_of_neg PartRec _ x xs hx] at h
      show (updFirstPart (x :: xs) cid uid now).find? _ = _
      unfold updFirstPart
      rw [if_neg hx, @List.find?_cons_of_neg PartRec _ x (updFirstPart xs cid uid now) hx]
      exact ih h

/-- Claim C5: the projected unread count is exactly the number of messages
of the conversation created strictly after the viewer's `last_read_at`
cursor whose sender is not the viewer; and once `mark_as_read` stamps the
cursor with the current instant, the unread count over a history whose
messages were all created up to that instant is 0. -/
theorem unread_count_correct (db db' : DB) (cid uid now : Nat) (p : PartRec)
    (hp : findParticipant db cid uid = some p)
    (hm : mark_as_read db now uid cid = .ok db')
    (hle : ∀ m ∈ db.messages, m.conversation_id = cid → m.created_at ≤ now) :
    projectUnread db cid uid =
      db.messages.countP (fun m => m.conversation_id == cid &&
        decide (p.last_read_at < m.created_at) && m.sender_id != some uid) ∧
    projectUnread db' cid uid = 0 := by
  constructor
  · unfold projectUnread
    rw [hp]
    show ((convMessages db cid).filter _).length = _
    rw [← List.countP_eq_length_filter]
    unfold convMessages
    rw [List.countP_filter]
    apply countP_ext
    intro a _
    cases a.conversation_id == cid <;>
      cases hda : decide (p.last_read_at < a.created_at) <;>
        cases a.sender_id != some uid <;> simp [hda]
  · unfold mark_as_read at hm
    rw [hp] at hm
    obtain rfl : { db with participants := updFirstPart db.participants cid uid now } = db' := by
      simpa using hm
    unfold projectUnread
    have hf : findParticipant
        { db with participants := updFirstPart db.participants cid uid now } cid uid
        = some { p with last_read_at := now } :=
      updFirstPart_find db.participants cid uid now p hp
    rw [hf]
    show ((convMessages db cid).filter _).length = 0
    rw [List.length_eq_zero]
    apply List.filter_eq_nil_iff.mpr
    intro m hmem
    have hc : m.conversation_id = cid := by
      have := (List.mem_filter.mp hmem).2
      simpa using this
    have hmm : m ∈ db.messages := (List.mem_filter.mp hmem).1
    have : m.created_at ≤ now := hle m hmm hc
    have hdec : decide (now < m.created_at) = false := by
      simp [Nat.not_lt.mpr this]
    simp [hdec]

/-- Witness for C5: user 2 views the chat with one unread incoming
message, and after marking it read at instant 9 the count drops to 0. -/
theorem unread_count_correct_witness :
    projectUnread dbMsg 0 2 =
      dbMsg.messages.countP (fun m => m.conversation_id == 0 &&
        decide (5 < m.created_at) && m.sender_id != some 2) ∧
    projectUnread { dbMsg with
      participants := updFirstPart dbMsg.participants 0 2 9 } 0 2 = 0 :=
  unread_count_correct dbMsg
    { dbMsg with participants := updFirstPart dbMsg.participants 0 2 9 }
    0 2 9 ⟨0, 2, UserRole.member, 5⟩ (by decide) (by decide) (by decide)

/-! ## C6: reaction toggle -/

theorem any_false_of_countP_zero {α : Type} (p : α → Bool) (l : List α)
    (h : l.countP p = 0) : l.any p = false :=
  List.any_eq_false.mpr fun x hx => by
    simpa using List.countP_eq_zero.mp h x hx

theorem countP_eraseP_zero {α : Type} (p : α → Bool) (l : List α)
    (h1 : l.countP p ≤ 1) : (l.eraseP p).countP p = 0 := by
  induction l with
  | nil => simp
  | cons x xs ih =>
    by_cases hx : p x = true
    · rw [List.eraseP_cons_of_pos hx]
      rw [List.countP_cons_of_pos p xs hx] at h1
      omega
    · rw [List.eraseP_cons_of_neg hx, List.countP_cons_of_neg p (xs.eraseP p) hx]
      rw [List.countP_cons_of_neg p xs hx] at h1
      exact ih h1

theorem eraseP_append_no_match {α : Type} (p : α → Bool) (l : List α) (x : α)
    (hl : l.countP p = 0) (hx : p x = true) : (l ++ [x]).eraseP p = l := by
  rw [List.eraseP_append,
    if_neg (by rw [any_false_of_countP_zero p l hl]; exact Bool.false_ne_true),
    List.eraseP_cons_of_pos hx, List.append_nil]

/-- Claim C6: `add_reaction` is a toggle — on a non-deleted message of a
chat the caller participates in, the first call flips the existence of the
(message, user, emoji) triple (reporting "added" when it was absent and
"removed" when present) and a second identical call flips it back to the
original state; each call succeeds, reports the count of that emoji
recomputed on the post-mutation state, and targets all chat participants. -/
theorem add_reaction_round_trip (db : DB) (uid cid mid : Nat) (emoji : String)
    (chat : ConvRec) (msg : MsgRec)
    (hchat : get_chat_details db cid uid = .ok chat)
    (hmsg : db.messages.find?
      (fun m => m.id == mid && m.conversation_id == cid && !m.is_deleted) = some msg)
    (hinv : db.reactions.countP (reactPred mid uid emoji) ≤ 1) :
    add_reaction db uid cid mid emoji =
      .ok (toggledReactions db mid uid emoji, toggleAction db mid uid emoji,
        emojiCount (toggledReactions db mid uid emoji) mid emoji,
        chatParticipantIds db cid) ∧
    add_reaction (toggledReactions db mid uid emoji) uid cid mid emoji =
      .ok (toggledReactions (toggledReactions db mid uid emoji) mid uid emoji,
        toggleAction (toggledReactions db mid uid emoji) mid uid emoji,
        emojiCount (toggledReactions (toggledReactions db mid uid emoji) mid uid emoji)
          mid emoji,
        chatParticipantIds db cid) ∧
    hasReaction (toggledReactions db mid uid emoji) mid uid emoji
      = !hasReaction db mid uid emoji ∧
    hasReaction (toggledReactions (toggledReactions db mid uid emoji) mid uid emoji)
      mid uid emoji = hasReaction db mid uid emoji ∧
    (toggleAction db mid uid emoji = "added"
      ↔ hasReaction db mid uid emoji = false) ∧
    (toggleAction (toggledReactions db mid uid emoji) mid uid emoji = "removed"
      ↔ hasReaction db mid uid emoji = false) := by
  have hrow : reactPred mid uid emoji ⟨mid, uid, emoji⟩ = true := by
    simp [reactPred]
  have hchat1 : get_chat_details (toggledReactions db mid uid emoji) cid uid = .ok chat := by
    unfold toggledReactions
    by_cases hre : hasReaction db mid uid emoji = true
    · rw [if_pos hre]; exact hchat
    · rw [if_neg hre]; exact hchat
  have hmsg1 : (toggledReactions db mid uid emoji).messages.find?
      (fun m => m.id == mid && m.conversation_id == cid && !m.is_deleted) = some msg := by
    unfold toggledReactions
    by_cases hre : hasReaction db mid uid emoji = true
    · rw [if_pos hre]; exact hmsg
    · rw [if_neg hre]; exact hmsg
  have hpart1 : chatParticipantIds (toggledReactions db mid uid emoji) cid
      = chatParticipantIds db cid := by
    unfold toggledReactions
    by_cases hre : hasReaction db mid uid emoji = true
    · rw [if_pos hre]; exact rfl
    · rw [if_neg hre]; exact rfl
  have hfirst : add_reaction db uid cid mid emoji =
      .ok (toggledReactions db mid uid emoji, toggleAction db mid uid emoji,
        emojiCount (toggledReactions db mid uid emoji) mid emoji,
        chatParticipantIds db cid) := by
    unfold add_reaction
    rw [hchat, hmsg]
    by_cases hre : hasReaction db mid uid emoji = true
    · simp [toggledReactions, toggleAction, hre]
    · simp [toggledReactions, toggleAction, hre]
  have hsecond : add_reaction (toggledReactions db mid uid emoji) uid cid mid emoji =
      .ok (toggledReactions (toggledReactions db mid uid emoji) mid uid emoji,
        toggleAction (toggledReactions db mid uid emoji) mid uid emoji,
        emojiCount (toggledReactions (toggledReactions db mid uid emoji) mid uid emoji)
          mid emoji,
        chatParticipantIds db cid) := by
    set db1 := toggledReactions db mid uid emoji with hdb1def
    unfold add_reaction
    rw [hchat1, hmsg1, ← hpart1]
    by_cases hre1 : hasReaction db1 mid uid emoji = true
    · simp [toggledReactions, toggleAction, hre1]
    · simp [toggledReactions, toggleAction, hre1]
  by_cases hre : hasReaction db mid uid emoji = true
  · have hdb1 : toggledReactions db mid uid emoji
        = { db with reactions := db.reactions.eraseP (reactPred mid uid emoji) } := by
      unfold toggledReactions
      rw [if_pos hre]
    have hzero : (db.reactions.eraseP (reactPred mid uid emoji)).countP
        (reactPred mid uid emoji) = 0 := countP_eraseP_zero _ _ hinv
    have hr1' : hasReaction
        { db with reactions := db.reactions.eraseP (reactPred mid uid emoji) }
        mid uid emoji = false :=
      any_false_of_countP_zero _ _ hzero
    have hr1 : hasReaction (toggledReactions db mid uid emoji) mid uid emoji = false := by
      rw [hdb1]
      exact hr1'
    have hdb2 : toggledReactions (toggledReactions db mid uid emoji) mid uid emoji
        = { db with reactions :=
            db.reactions.eraseP (reactPred mid uid emoji) ++ [⟨mid, uid, emoji⟩] } := by
      rw [hdb1]
      unfold toggledReactions
      rw [if_neg (by rw [hr1']; exact Bool.false_ne_true)]
    have hr2 : hasReaction (toggledReactions (toggledReactions db mid uid emoji)
        mid uid emoji) mid uid emoji = true := by
      rw [hdb2]
      unfold hasReaction
      rw [List.any_append]
      simp [hrow]
    refine ⟨hfirst, hsecond, ?_, ?_, ?_, ?_⟩
    · rw [hr1, hre]; rfl
    · rw [hr2, hre]
    · unfold toggleAction
      rw [if_pos hre]
      constructor
      · intro hc; exact absurd hc (by decide)
      · intro hc; rw [hre] at hc; exact absurd hc (by decide)
    · unfold toggleAction
      rw [if_neg (by rw [hr1]; exact Bool.false_ne_true)]
      constructor
      · intro hc; exact absurd hc (by decide)
      · intro hc; rw [hre] at hc; exact absurd hc (by decide)
  · have hre' : hasReaction db mid uid emoji = false := by
      revert hre; cases hasReaction db mid uid emoji <;> simp
    have hcz : db.reactions.countP (reactPred mid uid emoji) = 0 := by
      apply Nat.eq_zero_of_not_pos
      intro hpos
      obtain ⟨x, hx, hpx⟩ := List.countP_pos_iff.mp hpos
      have hcontra : hasReaction db mid uid emoji = true :=
        List.any_eq_true.mpr ⟨x, hx, hpx⟩
      rw [hre'] at hcontra
      exact absurd hcontra (by decide)
    have hdb1 : toggledReactions db mid uid emoji
        = { db with reactions := db.reactions ++ [⟨mid, uid, emoji⟩] } := by
      unfold toggledReactions
      rw [if_neg (by rw [hre']; exact Bool.false_ne_true)]
    have hr1' : hasReaction
        { db with reactions := db.reactions ++ [⟨mid, uid, emoji⟩] }
        mid uid emoji = true := by
      unfold hasReaction
      rw [List.any_append]
      simp [hrow]
    have hr1 : hasReaction (toggledReactions db mid uid emoji) mid uid emoji = true := by
      rw [hdb1]
      exact hr1'
    have hdb2 : toggledReactions (toggledReactions db mid uid emoji) mid uid emoji
        = { db with reactions := db.reactions } := by
      rw [hdb1]
      unfold toggledReactions
      rw [if_pos hr1']
      dsimp only
      rw [eraseP_append_no_match _ _ _ hcz hrow]
    have hr2 : hasReaction (toggledReactions (toggledReactions db mid uid emoji)
        mid uid emoji) mid uid emoji = false := by
      rw [hdb2]
      exact hre'
    refine ⟨hfirst, hsecond, ?_, ?_, ?_, ?_⟩
    · rw [hr1, hre']; rfl
    · rw [hr2, hre']
    · unfold toggleAction
      rw [if_neg (by rw [hre']; exact Bool.false_ne_true)]
      simp [hre']
    · unfold toggleAction
      rw [if_pos hr1]
      simp [hre']

/-- Witness for C6: user 1 toggles reaction "x" twice on message 10. -/
theorem add_reaction_round_trip_witness :
    add_reaction dbMsg 1 0 10 "x" =
      .ok (toggledReactions dbMsg 10 1 "x", toggleAction dbMsg 10 1 "x",
        emojiCount (toggledReactions dbMsg 10 1 "x") 10 "x",
        chatParticipantIds dbMsg 0) ∧
    add_reaction (toggledReactions dbMsg 10 1 "x") 1 0 10 "x" =
      .ok (toggledReactions (toggledReactions dbMsg 10 1 "x") 10 1 "x",
        toggleAction (toggledReactions dbMsg 10 1 "x") 10 1 "x",
        emojiCount (toggledReactions (toggledReactions dbMsg 10 1 "x") 10 1 "x") 10 "x",
        chatParticipantIds dbMsg 0) ∧
    hasReaction (toggledReactions dbMsg 10 1 "x") 10 1 "x"
      = !hasReaction dbMsg 10 1 "x" ∧
    hasReaction (toggledReactions (toggledReactions dbMsg 10 1 "x") 10 1 "x") 10 1 "x"
      = hasReaction dbMsg 10 1 "x" ∧
    (toggleAction dbMsg 10 1 "x" = "added" ↔ hasReaction dbMsg 10 1 "x" = false) ∧
    (toggleAction (toggledReactions dbMsg 10 1 "x") 10 1 "x" = "removed"
      ↔ hasReaction dbMsg 10 1 "x" = false) :=
  add_reaction_round_trip dbMsg 1 0 10 "x" ⟨0, false, none⟩
    ⟨10, 0, some 1, some "hi", MessageType.text, false, 3⟩
    (by decide) (by decide) (by decide)

/-! ## C7: soft delete idempotence -/

theorem tombstoneFirst_find (l : List MsgRec) (mid cid uid : Nat) (m : MsgRec)
    (h : l.find? (msgOwnedPred mid cid uid) = some m) :
    (tombstoneFirst l mid cid uid).find? (msgOwnedPred mid cid uid)
      = some { m with is_deleted := true, content := none } := by
  induction l with
  | nil => simp at h
  | cons x xs ih =>
    by_cases hx : msgOwnedPred mid cid uid x = true
    · rw [@List.find?_cons_of_pos MsgRec _ x xs hx] at h
      obtain rfl : x = m := by simpa using h
      unfold tombstoneFirst
      rw [if_pos hx]
      exact @List.find?_cons_of_pos MsgRec _ _ xs hx
    · rw [@List.find?_cons_of_neg MsgRec _ x xs hx] at h
      unfold tombstoneFirst
      rw [if_neg hx,
        @List.find?_cons_of_neg MsgRec _ x (tombstoneFirst xs mid cid uid) hx]
      exact ih h

/-- Claim C7: `delete_message` by the original sender is idempotent — the
first call tombstones the row (`is_deleted` set, content cleared, its
attachment rows dropped, while id, sender, conversation linkage and the
creation timestamp are untouched by the record update) and broadcasts to
the participants; a second call on the already-deleted message succeeds
without error, changes nothing and broadcasts to nobody. -/
theorem delete_message_idempotent (db : DB) (uid cid mid : Nat) (m : MsgRec)
    (hfind : db.messages.find? (msgOwnedPred mid cid uid) = some m)
    (hnd : m.is_deleted = false) :
    delete_message db uid cid mid
      = .ok (tombstoneDb db uid cid mid, chatParticipantIds db cid,
        "Message deleted") ∧
    (tombstoneDb db uid cid mid).messages.find? (msgOwnedPred mid cid uid)
      = some { m with is_deleted := true, content := none } ∧
    ((tombstoneDb db uid cid mid).attachments.filter
      fun a => a.message_id == mid) = [] ∧
    delete_message (tombstoneDb db uid cid mid) uid cid mid
      = .ok (tombstoneDb db uid cid mid, [], "Message already deleted") := by
  have hconv : m.conversation_id = cid := by
    have hpred := List.find?_some hfind
    simp [msgOwnedPred] at hpred
    exact hpred.1.2
  have hfound : (tombstoneDb db uid cid mid).messages.find? (msgOwnedPred mid cid uid)
      = some { m with is_deleted := true, content := none } :=
    tombstoneFirst_find db.messages mid cid uid m hfind
  refine ⟨?_, hfound, ?_, ?_⟩
  · unfold delete_message
    rw [hfind]
    dsimp only
    rw [if_neg (by rw [hnd]; exact Bool.false_ne_true), hconv]
    rfl
  · show ((db.attachments.filter fun a => a.message_id != mid).filter
      fun a => a.message_id == mid) = []
    apply List.filter_eq_nil_iff.mpr
    intro a ha
    have h2 := (List.mem_filter.mp ha).2
    simp at h2 ⊢
    exact h2
  · unfold delete_message
    rw [hfound]
    dsimp only
    rw [if_pos rfl]

/-- Witness for C7: user 1 deletes their message 10 (which carries one
attachment) twice. -/
theorem delete_message_idempotent_witness :
    delete_message dbAtt 1 0 10
      = .ok (tombstoneDb dbAtt 1 0 10, chatParticipantIds dbAtt 0,
        "Message deleted") ∧
    (tombstoneDb dbAtt 1 0 10).messages.find? (msgOwnedPred 10 0 1)
      = some ⟨10, 0, some 1, none, MessageType.text, true, 3⟩ ∧
    ((tombstoneDb dbAtt 1 0 10).attachments.filter
      fun a => a.message_id == 10) = [] ∧
    delete_message (tombstoneDb dbAtt 1 0 10) 1 0 10
      = .ok (tombstoneDb dbAtt 1 0 10, [], "Message already deleted") :=
  delete_message_idempotent dbAtt 1 0 10
    ⟨10, 0, some 1, some "hi", MessageType.text, false, 3⟩ (by decide) (by decide)

/-! ## C8: message type inference -/

/-- Claim C8 counterexample: "image/bmp" is an image MIME type — the
repository's own preview logic classifies it by the "image/" string head —
yet a successful send whose only attachment declares it stores type file,
not image, because the inference compares against the fixed four-element
whitelist. -/
theorem message_type_whitelist_cex :
    specImageMime "image/bmp" = true ∧
    (([FileMeta.mk (some "a.bmp") (some "image/bmp") 5].filterMap
      fun f => f.content_type).all specImageMime) = true ∧
    inferMessageType [FileMeta.mk (some "a.bmp") (some "image/bmp") 5]
      = MessageType.file ∧
    sentType (send_message dbPair 9 1 0 none
      [FileMeta.mk (some "a.bmp") (some "image/bmp") 5])
      = some MessageType.file := by
  decide

/-- Claim C8 (amended): for every successful `send_message`, the stored
type is `inferMessageType` of the uploaded files — text when no files are
present; with files present it is image exactly when every file carrying a
`content_type` attribute declares one of image/jpeg, image/png, image/gif
or image/webp (lower-cased), and file exactly otherwise. -/
theorem send_message_type_inference (db db' : DB) (now sender cid : Nat)
    (text : Option String) (files : List FileMeta) (msg : MsgRec) (tg : List Nat)
    (h : send_message db now sender cid text files = .ok (db', msg, tg)) :
    msg.type = inferMessageType files ∧
    (files.isEmpty = true → msg.type = MessageType.text) ∧
    (files.isEmpty = false →
      (msg.type = MessageType.image ↔
        ((files.filterMap fun f => f.content_type).all
          fun ct => imageTypes.contains (lowerStr ct)) = true) ∧
      (msg.type = MessageType.file ↔
        ((files.filterMap fun f => f.content_type).all
          fun ct => imageTypes.contains (lowerStr ct)) = false)) := by
  have htype : msg.type = inferMessageType files := by
    unfold send_message at h
    cases hg : get_chat_details db cid sender with
    | error e => rw [hg] at h; exact absurd h (by simp)
    | ok chat =>
      rw [hg] at h
      dsimp only at h
      by_cases hb : check_block_status db cid sender = true
      · rw [if_pos hb] at h; exact absurd h (by simp)
      · rw [if_neg hb] at h
        by_cases he : (textFalsy text && files.isEmpty) = true
        · rw [if_pos he] at h; exact absurd h (by simp)
        · rw [if_neg he] at h
          by_cases ho : (files.any fun f =>
              f.filename.isSome && decide (10485760 < f.size)) = true
          · rw [if_pos ho] at h; exact absurd h (by simp)
          · rw [if_neg ho] at h
            obtain ⟨h1, h2, h3⟩ := by simpa using h
            rw [← h2]
  refine ⟨htype, ?_, ?_⟩
  · intro hE
    rw [htype]
    unfold inferMessageType
    rw [if_pos hE]
  · intro hE
    rw [htype]
    unfold inferMessageType
    rw [if_neg (by rw [hE]; exact Bool.false_ne_true)]
    by_cases hA : ((files.filterMap fun f => f.content_type).all
        fun ct => imageTypes.contains (lowerStr ct)) = true
    · rw [if_pos hA, hA]
      constructor
      · constructor
        · intro _; rfl
        · intro _; rfl
      · constructor
        · intro hc; exact absurd hc (by decide)
        · intro hc; exact absurd hc (by decide)
    · have hA' : ((files.filterMap fun f => f.content_type).all
          fun ct => imageTypes.contains (lowerStr ct)) = false := by
        revert hA
        cases (files.filterMap fun f => f.content_type).all
          fun ct => imageTypes.contains (lowerStr ct) <;> simp
      rw [if_neg (by rw [hA']; exact Bool.false_ne_true), hA']
      constructor
      · constructor
        · intro hc; exact absurd hc (by decide)
        · intro hc; exact absurd hc (by decide)
      · constructor
        · intro _; rfl
        · intro _; rfl

/-- Witness for C8: a send with one png attachment stores type image. -/
theorem send_message_type_inference_witness :
    (MsgRec.mk 1 0 (some 1) none MessageType.image false 9).type
      = inferMessageType [FileMeta.mk (some "a.png") (some "image/png") 4] ∧
    (([FileMeta.mk (some "a.png") (some "image/png") 4] : List FileMeta).isEmpty
        = true →
      (MsgRec.mk 1 0 (some 1) none MessageType.image false 9).type
        = MessageType.text) ∧
    (([FileMeta.mk (some "a.png") (some "image/png") 4] : List FileMeta).isEmpty
        = false →
      ((MsgRec.mk 1 0 (some 1) none MessageType.image false 9).type
          = MessageType.image ↔
        ((([FileMeta.mk (some "a.png") (some "image/png") 4]).filterMap
          fun f => f.content_type).all
          fun ct => imageTypes.contains (lowerStr ct)) = true) ∧
      ((MsgRec.mk 1 0 (some 1) none MessageType.image false 9).type
          = MessageType.file ↔
        ((([FileMeta.mk (some "a.png") (some "image/png") 4]).filterMap
          fun f => f.content_type).all
          fun ct => imageTypes.contains (lowerStr ct)) = false)) :=
  send_message_type_inference dbPair
    { dbPair with
      messages := [MsgRec.mk 1 0 (some 1) none MessageType.image false 9],
      attachments := [AttRec.mk 2 1 (some "image/png") (some "a.png") 4],
      nextId := 3 }
    9 1 0 none [FileMeta.mk (some "a.png") (some "image/png") 4]
    (MsgRec.mk 1 0 (some 1) none MessageType.image false 9) [1, 2] (by decide)

/-! ## C9: block / unblock idempotence and event delivery -/

/-- Claim C9: blocking an already-blocked user and unblocking a
non-blocked user are no-op successes that change no state and notify
nobody; on an actual state change the `user_block_update` event goes to
members of the pair {blocker, blocked} only — every online member of the
pair receives it and no third user ever does. -/
theorem block_unblock_idem (db : DB) (conn : ConnMgr) (me target : Nat)
    (hne : (target == me) = false) (hmem : db.users.contains target = true) :
    (hasBlock db me target = true → block_user db conn me target = .ok (db, [])) ∧
    (hasBlock db me target = false →
      block_user db conn me target =
        .ok ({ db with blocks := db.blocks ++ [⟨me, target⟩] },
          blockRecipients conn me target)) ∧
    (hasBlock db me target = false → unblock_user db conn me target = (db, [])) ∧
    (hasBlock db me target = true →
      unblock_user db conn me target =
        ({ db with blocks := List.eraseP (fun r => r.blocker_id == me && r.blocked_id == target) db.blocks },
          blockRecipients conn me target)) ∧
    (∀ u ∈ blockRecipients conn me target, u = me ∨ u = target) ∧
    (hasConn conn me = true → me ∈ blockRecipients conn me target) ∧
    (hasConn conn target = true → target ∈ blockRecipients conn me target) := by
  refine ⟨?_, ?_, ?_, ?_, ?_, ?_, ?_⟩
  · intro hb
    unfold block_user
    rw [if_neg (by rw [hne]; exact Bool.false_ne_true),
      if_neg (by rw [hmem]; simp), if_pos hb]
  · intro hb
    unfold block_user
    rw [if_neg (by rw [hne]; exact Bool.false_ne_true),
      if_neg (by rw [hmem]; simp),
      if_neg (by rw [hb]; exact Bool.false_ne_true)]
  · intro hb
    unfold unblock_user
    have hf : db.blocks.find?
        (fun r => r.blocker_id == me && r.blocked_id == target) = none := by
      apply List.find?_eq_none.mpr
      intro x hx
      have := List.any_eq_false.mp (by exact hb) x hx
      simpa using this
    rw [hf]
  · intro hb
    unfold unblock_user
    obtain ⟨r, hr⟩ : ∃ r, db.blocks.find?
        (fun q => q.blocker_id == me && q.blocked_id == target) = some r := by
      obtain ⟨x, hx, hpx⟩ := List.any_eq_true.mp hb
      exact Option.isSome_iff_exists.mp (List.find?_isSome.mpr ⟨x, hx, hpx⟩)
    rw [hr]
  · intro u hu
    have := (List.mem_filter.mp hu).1
    simpa using this
  · intro hc
    exact List.mem_filter.mpr ⟨by simp, hc⟩
  · intro hc
    exact List.mem_filter.mpr ⟨by simp, hc⟩

/-- Witness for C9: with both users online, user 1 blocks user 2 (event to
both), reblocking is a no-op, and unblocking before any block is a no-op. -/
theorem block_unblock_idem_witness :
    (hasBlock dbPair 1 2 = true → block_user dbPair cmBoth 1 2 = .ok (dbPair, [])) ∧
    (hasBlock dbPair 1 2 = false →
      block_user dbPair cmBoth 1 2 =
        .ok ({ dbPair with blocks := dbPair.blocks ++ [⟨1, 2⟩] },
          blockRecipients cmBoth 1 2)) ∧
    (hasBlock dbPair 1 2 = false → unblock_user dbPair cmBoth 1 2 = (dbPair, [])) ∧
    (hasBlock dbPair 1 2 = true →
      unblock_user dbPair cmBoth 1 2 =
        ({ dbPair with blocks := List.eraseP (fun r => r.blocker_id == 1 && r.blocked_id == 2) dbPair.blocks },
          blockRecipients cmBoth 1 2)) ∧
    (∀ u ∈ blockRecipients cmBoth 1 2, u = 1 ∨ u = 2) ∧
    (hasConn cmBoth 1 = true → 1 ∈ blockRecipients cmBoth 1 2) ∧
    (hasConn cmBoth 2 = true → 2 ∈ blockRecipients cmBoth 1 2) :=
  block_unblock_idem dbPair cmBoth 1 2 (by decide) (by decide)

/-! ## C10: message history ordering and tombstone visibility -/

/-- Claim C10: without a search query `get_messages` returns exactly the
messages of the conversation — soft-deleted ones included — in ascending
creation-time order; with a non-empty query it additionally restricts to
non-deleted messages whose content matches the case-insensitive substring
filter, still in ascending order. -/
theorem get_messages_order_and_tombstones (db : DB) (uid cid : Nat) (q : String)
    (out outq : List MsgRec)
    (hq : q.isEmpty = false)
    (h0 : get_messages db uid cid none = .ok out)
    (h1 : get_messages db uid cid (some q) = .ok outq) :
    (∀ m, m ∈ out ↔ m ∈ db.messages ∧ m.conversation_id = cid) ∧
    List.Pairwise (fun a b => a.created_at ≤ b.created_at) out ∧
    (∀ m, m ∈ outq ↔ m ∈ db.messages ∧ m.conversation_id = cid ∧
      ilikeContains m.content q = true ∧ m.is_deleted = false) ∧
    List.Pairwise (fun a b => a.created_at ≤ b.created_at) outq := by
  have hsorted : ∀ l : List MsgRec,
      List.Pairwise (fun a b => a.created_at ≤ b.created_at)
        (List.insertionSort msgLe l) :=
    fun l => List.sorted_insertionSort msgLe l
  cases hg : get_chat_details db cid uid with
  | error e =>
    unfold get_messages at h0
    rw [hg] at h0
    exact absurd h0 (by simp)
  | ok chat =>
    unfold get_messages at h0 h1
    rw [hg] at h0 h1
    have hout : out = List.insertionSort msgLe (db.messages.filter
        fun m => m.conversation_id == cid && true) := by
      simpa using h0.symm
    have houtq : outq = List.insertionSort msgLe (db.messages.filter
        fun m => m.conversation_id == cid &&
          (if q.isEmpty = true then true
           else ilikeContains m.content q && !m.is_deleted)) := by
      simpa using h1.symm
    refine ⟨?_, ?_, ?_, ?_⟩
    · intro m
      rw [hout, (List.perm_insertionSort msgLe _).mem_iff, List.mem_filter]
      simp
    · rw [hout]; exact hsorted _
    · intro m
      rw [houtq, (List.perm_insertionSort msgLe _).mem_iff, List.mem_filter]
      rw [if_neg (by rw [hq]; exact Bool.false_ne_true)]
      simp [and_assoc]
    · rw [houtq]; exact hsorted _

/-- Witness for C10: the full history of conversation 0 comes back in
creation order with the tombstone included, while searching "HELL" keeps
only the live matching message. -/
theorem get_messages_order_and_tombstones_witness :
    (∀ m, m ∈ [MsgRec.mk 12 0 (some 1) none MessageType.text true 1,
        MsgRec.mk 11 0 (some 2) (some "hello there") MessageType.text false 3] ↔
      m ∈ dbHist.messages ∧ m.conversation_id = 0) ∧
    List.Pairwise (fun a b => a.created_at ≤ b.created_at)
      [MsgRec.mk 12 0 (some 1) none MessageType.text true 1,
        MsgRec.mk 11 0 (some 2) (some "hello there") MessageType.text false 3] ∧
    (∀ m, m ∈ [MsgRec.mk 11 0 (some 2) (some "hello there") MessageType.text false 3] ↔
      m ∈ dbHist.messages ∧ m.conversation_id = 0 ∧
      ilikeContains m.content "HELL" = true ∧ m.is_deleted = false) ∧
    List.Pairwise (fun a b => a.created_at ≤ b.created_at)
      [MsgRec.mk 11 0 (some 2) (some "hello there") MessageType.text false 3] :=
  get_messages_order_and_tombstones dbHist 1 0 "HELL"
    [MsgRec.mk 12 0 (some 1) none MessageType.text true 1,
      MsgRec.mk 11 0 (some 2) (some "hello there") MessageType.text false 3]
    [MsgRec.mk 11 0 (some 2) (some "hello there") MessageType.text false 3]
    (by decide) (by decide) (by decide)

end WebChat
